import Mathlib

/-!
# fs-shadow: the tree watcher

A shallow embedding of `watcher/watcher_linux.go` and `watcher/fs_watcher.go`.

* Go pointers that are mutated in place (the shadow tree, the fsnotify watcher) become
  explicit state that every method takes and returns.
* A Go call either returns, panics (nil pointer dereference) or blocks for ever (a send on an
  unbuffered channel that nobody receives from); `Outcome` keeps the three apart.
* A Go `(value, error)` pair of nil-able results is a pair of `Option`s.
* The mutex taken by `Handler` / `EventHandler` serialises callers; the embedding is sequential,
  so it has no counterpart here.

The packages `connector`, `filenode` and `event` of the repository are collaborators of the two
files; they are modelled from the specification and marked as such.
-/

set_option autoImplicit false

namespace FsShadow

/-! ## Errors and outcomes -/

/-- The error kinds of §7 of the specification. `NotFile` is the failure of `update` on a
directory, `SourceFailure` a failure of the notification source outside add and remove. -/
inductive Error where
  | NotDirectory
  | PathDoesNotExist
  | NotFound
  | AlreadyExists
  | InvalidPath
  | WatchRegistrationFailed
  | UnhandledEventKind
  | NotFile
  | SourceFailure
deriving DecidableEq, Repr

/-- How a Go call ends. -/
inductive Outcome (α : Type) where
  /-- The call returned `v`. -/
  | returned (v : α)
  /-- The call dereferenced a nil pointer. -/
  | panicked
  /-- The call blocks for ever on a channel send without a receiver. -/
  | blocked
deriving DecidableEq, Repr

/-! ## The live filesystem and the path abstraction (package `connector`) -/

/-- An entry of the live filesystem: a file with the checksum of its present content, or a
directory with its entries. -/
inductive FSEntry where
  | file (name : String) (sum : String)
  | dir (name : String) (entries : List FSEntry)
deriving Repr

/-- The leaf name of a filesystem entry. -/
def FSEntry.name : FSEntry → String
  | .file n _ => n
  | .dir n _ => n

/-- Follow path segments down from an entry. -/
def FSEntry.descend : FSEntry → List String → Option FSEntry
  | e, [] => some e
  | .file _ _, _ :: _ => none
  | .dir _ es, s :: rest =>
    match es.find? (fun c => c.name == s) with
    | none => none
    | some c => FSEntry.descend c rest

/-- Modelled from the spec: the `connector.Path` value of §3 and §4.1, of which the repository
source is missing. A path is its segments below `/` and its variant (real or virtual). -/
structure Path where
  segs : List String
  virt : Bool
deriving DecidableEq, Repr

/-- Modelled from the spec: the segments of a path string (path-segment arithmetic, §1), cut
at every `/`; `acc` holds the current segment, reversed. -/
def splitSegs : List Char → List Char → List String
  | [], acc => if acc = [] then [] else [String.mk acc.reverse]
  | c :: cs, acc =>
    if c = '/' then
      (if acc = [] then splitSegs cs [] else String.mk acc.reverse :: splitSegs cs [])
    else splitSegs cs (c :: acc)

/-- Modelled from the spec: `connector.NewFSPath`, the real-filesystem variant (§2). -/
def NewFSPath (p : String) : Path := ⟨splitSegs p.toList [], false⟩

/-- Modelled from the spec: `connector.NewVirtualPath`, the virtual variant (§2). -/
def NewVirtualPath (p : String) : Path := ⟨splitSegs p.toList [], true⟩

/-- Modelled from the spec: `toString()`, the canonical string form (§4.1), the Go method
`String()`. -/
def Path.toString (p : Path) : String := "/" ++ "/".intercalate p.segs

/-- Modelled from the spec: `isVirtual()` (§4.1). -/
def Path.IsVirtual (p : Path) : Bool := p.virt

/-- Modelled from the spec: `name()`, the leaf name (§4.1). -/
def Path.Name (p : Path) : String := p.segs.getLastD ""

/-- Modelled from the spec: `parent()`, the parent path (§4.1). -/
def Path.ParentPath (p : Path) : Path := ⟨p.segs.dropLast, p.virt⟩

/-- Modelled from the spec: the segments of `segs` below `base`, when `base` leads `segs`
(`excludePrefix`, §4.1). -/
def stripBase : List String → List String → Option (List String)
  | [], segs => some segs
  | _ :: _, [] => none
  | b :: bs, s :: ss => if b = s then stripBase bs ss else none

/-- Modelled from the spec: `excludePrefix(base)` (§4.1), the path relative to `base`: empty
for the base itself, and a failure (`InvalidPath`) when `base` does not lead the path. The Go
method has one result, a nil-able `connector.Path`; the failure is its nil value, which the tree
operations answer with `InvalidPath`. -/
def Path.ExcludePath (p base : Path) : Option Path :=
  match stripBase base.segs p.segs with
  | none => none
  | some rel => some ⟨rel, p.virt⟩

/-! ## The shadow tree node (package `filenode`) -/

/-- Modelled from the spec: the node metadata of §3. -/
structure MetaData where
  IsDir : Bool
  Sum : String
deriving DecidableEq, Repr

/-- Modelled from the spec: the shadow tree node of §3 (`filenode.FileNode`, of which the
repository source is missing): a leaf name, the metadata, and the children, looked up by
name. -/
inductive FileNode where
  | mk (Name : String) (Meta : MetaData) (Subs : List FileNode)
deriving Repr

/-- Modelled from the spec: the field `name` of a node (§3). -/
def FileNode.Name : FileNode → String
  | .mk n _ _ => n

/-- Modelled from the spec: the field `metadata` of a node (§3). -/
def FileNode.Meta : FileNode → MetaData
  | .mk _ m _ => m

/-- Modelled from the spec: the field `children` of a node (§3). -/
def FileNode.Subs : FileNode → List FileNode
  | .mk _ _ subs => subs

/-- Modelled from the spec: a call of one of the tree operations of §4.2, with its
arguments. -/
inductive TreeCall where
  | Create (relativePath : Option Path) (sourcePath : Path)
  | Update (relativePath : Option Path) (sourcePath : Path)
  | Remove (relativePath : Option Path)
  | Rename (fromRelative toRelative : Option Path)
  | Move (fromRelative toRelative : Option Path)

/-! ## What the watcher consults outside the two files -/

/-- Everything outside the two files that their code consults.

* `disk`: the live filesystem below `/`.
* `virtExists`, `virtIsDir`: the synthetic predicates that answer for virtual paths.
* `watcherErr`: the error of `fsnotify.NewWatcher()`, nil when the source is constructed.
* `refuses`: the paths that the notification source refuses to register.
* `rmWatchFails`: the paths for whose watch the kernel call behind `Watcher.Remove` fails (the
  kernel drops a watch by itself when the watched directory goes away).
* `leftByFailure`: what a tree operation that fails leaves behind, the tree and the discovery
  notifications it had sent by then. The specification names the error kinds of the tree
  operations and is silent on this, so it is an input. -/
structure World where
  disk : List FSEntry
  virtExists : List String → Bool
  virtIsDir : List String → Bool
  watcherErr : Option Error
  refuses : String → Bool
  rmWatchFails : String → Bool
  leftByFailure : TreeCall → FileNode → FileNode × List Path

/-- The entry of the live filesystem at the given segments, `/` itself for no segments. -/
def World.stat (w : World) (segs : List String) : Option FSEntry :=
  FSEntry.descend (.dir "" w.disk) segs

/-- Modelled from the spec: `exists()`, which queries the live filesystem for the real variant
and a synthetic predicate for the virtual variant (§4.1). -/
def Path.Exists (w : World) (p : Path) : Bool :=
  if p.virt then w.virtExists p.segs else (w.stat p.segs).isSome

/-- Modelled from the spec: `isDirectory()`, which queries the live filesystem for the real
variant and a synthetic predicate for the virtual variant (§4.1). -/
def Path.IsDir (w : World) (p : Path) : Bool :=
  if p.virt then w.virtIsDir p.segs else
    match w.stat p.segs with
    | some (.dir _ _) => true
    | _ => false

/-- Modelled from the spec: the checksum provider `computeChecksum(path)` (§6); the filesystem
model stores with every file the checksum of its present content. -/
def computeChecksum (w : World) (p : Path) : String :=
  match w.stat p.segs with
  | some (.file _ s) => s
  | _ => ""

/-! ## The notification source (fsnotify) -/

/-- The bit mask `fsnotify.Op` (a `uint32`), with the values of the library. -/
abbrev fsnotify.Op := Nat

/-- The operation `fsnotify.Create`. -/
def fsnotify.Create : fsnotify.Op := 1

/-- The operation `fsnotify.Write`. -/
def fsnotify.Write : fsnotify.Op := 2

/-- The operation `fsnotify.Remove`. -/
def fsnotify.Remove : fsnotify.Op := 4

/-- The operation `fsnotify.Rename`. -/
def fsnotify.Rename : fsnotify.Op := 8

/-- The operation `fsnotify.Chmod`. -/
def fsnotify.Chmod : fsnotify.Op := 16

/-- The notification source of §6: the watch set is the list of directories registered with
it (`WatchList()`). -/
structure Watcher where
  watches : List String
deriving DecidableEq, Repr

/-- The call `Watcher.Add(name)`, `registerDirectory` of §6: the source registers the
directory unless it refuses it; a directory that is registered already stays registered
once. -/
def Watcher.Add (w : World) (s : Watcher) (name : String) : Watcher × Option Error :=
  if w.refuses name then (s, some .WatchRegistrationFailed)
  else if name ∈ s.watches then (s, none)
  else (⟨s.watches ++ [name]⟩, none)

/-- The call `Watcher.Remove(name)`, `unregisterDirectory` of §6, as the library does it: a
directory that is not registered is an error and the watch set stays; a registered one is taken
out of the watch set first, and then the kernel is asked to drop the watch; when that call
fails, its error is returned with the directory already out of the watch set. -/
def Watcher.Remove (w : World) (s : Watcher) (name : String) : Watcher × Option Error :=
  if name ∈ s.watches then
    if w.rmWatchFails name then
      (⟨s.watches.filter (fun q => q ≠ name)⟩, some .WatchRegistrationFailed)
    else (⟨s.watches.filter (fun q => q ≠ name)⟩, none)
  else (s, some .WatchRegistrationFailed)

/-! ## The shadow tree operations (package `filenode`) -/

/-- Modelled from the spec: the lookup in `children`, a mapping from names to nodes (§3). -/
def FileNode.child? (n : FileNode) (s : String) : Option FileNode :=
  n.Subs.find? (fun c => c.Name == s)

/-- Modelled from the spec: the node with a name taken out of its `children` mapping. -/
def FileNode.dropChild (n : FileNode) (s : String) : FileNode :=
  .mk n.Name n.Meta (n.Subs.filter (fun c => !(c.Name == s)))

/-- Modelled from the spec: the node with the entry of `children` for the name of `c` set
to `c`. -/
def FileNode.setChild (n : FileNode) (c : FileNode) : FileNode :=
  .mk n.Name n.Meta (n.Subs.map (fun x => if x.Name == c.Name then c else x))

/-- Modelled from the spec: the node with one more entry in `children`. -/
def FileNode.addChild (n : FileNode) (c : FileNode) : FileNode :=
  .mk n.Name n.Meta (n.Subs ++ [c])

/-- Modelled from the spec: the node under another name, its metadata and children kept
(rename, §4.2). -/
def FileNode.withName (n : FileNode) (s : String) : FileNode :=
  .mk s n.Meta n.Subs

/-- Modelled from the spec: the walk from a node, one segment at a time (§4.2). -/
def FileNode.descend : FileNode → List String → Option FileNode
  | n, [] => some n
  | n, s :: rest =>
    match n.child? s with
    | none => none
    | some c => FileNode.descend c rest

/-- Modelled from the spec: detaching the node at the given segments below `n` (remove,
§4.2): the tree without it, and the detached subtree; `NotFound` when it is absent. -/
def FileNode.detach : FileNode → List String → Except Error (FileNode × FileNode)
  | _, [] => .error .NotFound
  | n, s :: rest =>
    match n.child? s with
    | none => .error .NotFound
    | some c =>
      match rest with
      | [] => .ok (n.dropChild s, c)
      | _ :: _ =>
        match FileNode.detach c rest with
        | .error e => .error e
        | .ok (c1, r) => .ok (n.setChild c1, r)

/-- Modelled from the spec: attaching `c` at the given segments below `n` (create, §4.2):
every segment before the last one has to exist as a directory node (`NotFound`), the last one
must not exist (`AlreadyExists`). -/
def FileNode.attach : FileNode → List String → FileNode → Except Error FileNode
  | _, [], _ => .error .AlreadyExists
  | n, s :: rest, c =>
    if !n.Meta.IsDir then .error .NotFound else
    match rest with
    | [] => if (n.child? s).isSome then .error .AlreadyExists else .ok (n.addChild c)
    | _ :: _ =>
      match n.child? s with
      | none => .error .NotFound
      | some m =>
        match FileNode.attach m rest c with
        | .error e => .error e
        | .ok m1 => .ok (n.setChild m1)

/-- Modelled from the spec: putting `c` in the place of the node at the given segments below
`n` (update, §4.2). -/
def FileNode.replaceAt : FileNode → List String → FileNode → Except Error FileNode
  | _, [], c => .ok c
  | n, s :: rest, c =>
    match n.child? s with
    | none => .error .NotFound
    | some m =>
      match FileNode.replaceAt m rest c with
      | .error e => .error e
      | .ok m1 => .ok (n.setChild m1)

mutual
/-- Modelled from the spec: the subtree of shadow nodes that mirrors a filesystem entry, the
recursive descent of `create` (§4.2). -/
def FileNode.ofEntry : FSEntry → FileNode
  | .file n s => .mk n ⟨false, s⟩ []
  | .dir n es => .mk n ⟨true, ""⟩ (FileNode.ofEntries es)
/-- Modelled from the spec: the shadow nodes of the entries of a directory. -/
def FileNode.ofEntries : List FSEntry → List FileNode
  | [] => []
  | e :: es => FileNode.ofEntry e :: FileNode.ofEntries es
end

mutual
/-- Modelled from the spec: the discovery notifications of the recursive descent of `create`
(§4.2) for an entry of the directory `parent`: one for every directory, each before the
directories inside it. -/
def discoverEntry (parent : List String) : FSEntry → List Path
  | .file _ _ => []
  | .dir n es => ⟨parent ++ [n], false⟩ :: discoverEntries (parent ++ [n]) es
/-- Modelled from the spec: the discovery notifications for the entries of the directory
`parent`. -/
def discoverEntries (parent : List String) : List FSEntry → List Path
  | [] => []
  | e :: es => discoverEntry parent e ++ discoverEntries parent es
end

mutual
/-- The number of directory nodes in a subtree, its root included (used to state the claim on
the size of the watch set). -/
def FileNode.dirCount : FileNode → Nat
  | .mk _ m subs => (if m.IsDir then 1 else 0) + FileNode.dirCountList subs
/-- The number of directory nodes in a list of subtrees. -/
def FileNode.dirCountList : List FileNode → Nat
  | [] => 0
  | c :: cs => FileNode.dirCount c + FileNode.dirCountList cs
end

/-- Modelled from the spec: what a tree operation of §4.2 gives back: the tree after the call
(Go mutates it in place), and the Go results, a nil-able node and a nil-able error. `sent` are
the discovery notifications that the call sends on its notifier channel, in order (`Create`
only). -/
structure TreeResult where
  tree : FileNode
  node : Option FileNode
  err : Option Error
  sent : List Path

/-- Modelled from the spec: a tree operation that fails returns its error kind (§4.2, §7) and
no node. What it leaves behind, the tree and the discovery notifications sent by then, is not
fixed by the specification and is taken from `World.leftByFailure`. -/
def TreeResult.failed (w : World) (c : TreeCall) (t : FileNode) (e : Error) : TreeResult :=
  ⟨(w.leftByFailure c t).1, none, some e, (w.leftByFailure c t).2⟩

/-- Modelled from the spec: the segments of a relative path below the root node. The relative
path is taken from the parent directory of the watched root (§3), so it starts with the name of
the root; a nil path is the failed prefix exclusion (`InvalidPath`). -/
def FileNode.relSegs (t : FileNode) (rel : Option Path) : Except Error (List String) :=
  match rel with
  | none => .error .InvalidPath
  | some p =>
    match p.segs with
    | [] => .error .NotFound
    | r :: rest => if r = t.Name then .ok rest else .error .NotFound

/-- Modelled from the spec: `search(relativePathOrPrefix)` of §4.2, the node at that path or
nil; it never fails. -/
def FileNode.Search (t : FileNode) (rel : Option Path) : Option FileNode :=
  match t.relSegs rel with
  | .error _ => none
  | .ok segs => t.descend segs

/-- Modelled from the spec: the node that `create` builds for `sourcePath` (§4.2), and its
discovery notifications: a directory node mirrors the real subtree, a file node carries the
checksum of the file. -/
def FileNode.build (w : World) (name : String) (sourcePath : Path) : FileNode × List Path :=
  if sourcePath.IsDir w then
    match (if sourcePath.virt then none else w.stat sourcePath.segs) with
    | some (.dir _ es) =>
      (.mk name ⟨true, ""⟩ (FileNode.ofEntries es),
        sourcePath :: discoverEntries sourcePath.segs es)
    | _ => (.mk name ⟨true, ""⟩ [], [sourcePath])
  else (.mk name ⟨false, computeChecksum w sourcePath⟩ [], [])

/-- Modelled from the spec: `create(relativePath, sourcePath, discoveryNotifier)` of §4.2. It
walks from the root one segment at a time; every intermediate segment has to exist as a
directory node (`NotFound`), the last one must not exist (`AlreadyExists`); the new node is a
directory when `sourcePath` is one, and a directory is populated by a recursive descent into the
real subtree, with one discovery notification for every directory node created. The create of
the root itself is the initial population of §4.4: it populates the empty root node. -/
def FileNode.Create (w : World) (t : FileNode) (rel : Option Path) (sourcePath : Path) :
    TreeResult :=
  match t.relSegs rel with
  | .error e => .failed w (.Create rel sourcePath) t e
  | .ok [] =>
    if t.Subs.isEmpty then
      let b := FileNode.build w t.Name sourcePath
      ⟨b.1, some b.1, none, b.2⟩
    else .failed w (.Create rel sourcePath) t .AlreadyExists
  | .ok (s :: rest) =>
    let b := FileNode.build w ((s :: rest).getLastD s) sourcePath
    match t.attach (s :: rest) b.1 with
    | .error e => .failed w (.Create rel sourcePath) t e
    | .ok t1 => ⟨t1, some b.1, none, b.2⟩

/-- Modelled from the spec: `update(relativePath, sourcePath)` of §4.2. It finds the node
(`NotFound`), fails on a directory, and recomputes the checksum. -/
def FileNode.Update (w : World) (t : FileNode) (rel : Option Path) (sourcePath : Path) :
    TreeResult :=
  match t.relSegs rel with
  | .error e => .failed w (.Update rel sourcePath) t e
  | .ok segs =>
    match t.descend segs with
    | none => .failed w (.Update rel sourcePath) t .NotFound
    | some n =>
      if n.Meta.IsDir then .failed w (.Update rel sourcePath) t .NotFile else
      let n1 := FileNode.mk n.Name ⟨false, computeChecksum w sourcePath⟩ n.Subs
      match t.replaceAt segs n1 with
      | .error e => .failed w (.Update rel sourcePath) t e
      | .ok t1 => ⟨t1, some n1, none, []⟩

/-- Modelled from the spec: `remove(relativePath)` of §4.2. It finds and detaches the node
(`NotFound`) and returns the removed subtree; the root has no parent to be detached from. -/
def FileNode.Remove (w : World) (t : FileNode) (rel : Option Path) : TreeResult :=
  match t.relSegs rel with
  | .error e => .failed w (.Remove rel) t e
  | .ok segs =>
    match t.detach segs with
    | .error e => .failed w (.Remove rel) t e
    | .ok (t1, n) => ⟨t1, some n, none, []⟩

/-- Modelled from the spec: the common contract of `rename` and `move` (§4.2) for the call
`c`: the subtree at `fromRel` is detached and attached again under the new name at the parent
of `toRel` (`NotFound`, `AlreadyExists`); it keeps its nodes and their checksums. -/
def FileNode.reattach (w : World) (c : TreeCall) (t : FileNode) (fromRel toRel : Option Path) :
    TreeResult :=
  match t.relSegs fromRel, t.relSegs toRel with
  | .error e, _ => .failed w c t e
  | .ok _, .error e => .failed w c t e
  | .ok src, .ok dst =>
    match t.detach src with
    | .error e => .failed w c t e
    | .ok (t1, n) =>
      let n1 := n.withName (dst.getLastD n.Name)
      match t1.attach dst n1 with
      | .error e => .failed w c t e
      | .ok t2 => ⟨t2, some n1, none, []⟩

/-- Modelled from the spec: `rename(fromRelative, toRelative)` of §4.2. It detaches the subtree
at `fromRelative` and attaches it again under the new name at the parent of `toRelative`
(`NotFound`, `AlreadyExists`); the subtree keeps its nodes and their checksums. -/
def FileNode.Rename (w : World) (t : FileNode) (fromRel toRel : Option Path) : TreeResult :=
  FileNode.reattach w (.Rename fromRel toRel) t fromRel toRel

/-- Modelled from the spec: `move(fromRelative, toRelative)` of §4.2, the contract of rename,
with another parent directory allowed. -/
def FileNode.Move (w : World) (t : FileNode) (fromRel toRel : Option Path) : TreeResult :=
  FileNode.reattach w (.Move fromRel toRel) t fromRel toRel

/-! ## Events, transactions, channels -/

/-- Modelled from the spec: the type of a semantic event (`event.Type`, §3), one of the five
operations; `Other` stands for every further value of the Go type. -/
inductive EventType where
  | Create
  | Write
  | Remove
  | Rename
  | Move
  | Other (code : Nat)
deriving DecidableEq, Repr

/-- Modelled from the spec: the semantic event of §3 (`event.Event`). `ToPath` is there for
Rename and Move only, and nil otherwise. -/
structure Event where
  Typ : EventType
  FromPath : Path
  ToPath : Option Path
deriving DecidableEq, Repr

/-- Modelled from the spec: the optional correlation payload of an event (§3),
`filenode.ExtraPayload`. -/
structure ExtraPayload where
  payload : String
deriving DecidableEq, Repr

/-- Modelled from the spec: the transaction of §3, a node snapshot and the event type. -/
structure EventTransaction where
  Node : FileNode
  Typ : EventType

/-- Modelled from the spec: `makeEventTransaction`, which builds the transaction of §3 from
the node and the event type. -/
def makeEventTransaction (node : FileNode) (t : EventType) : EventTransaction := ⟨node, t⟩

/-- An unbuffered Go channel, seen from the sender: whether some goroutine receives from it,
and the values delivered so far. -/
structure Chan (α : Type) where
  receiver : Bool
  delivered : List α

/-- The channel made by `make(chan T)`: nothing receives from it yet. -/
def Chan.make (α : Type) : Chan α := ⟨false, []⟩

/-- A send `c <- v`: it delivers `v` when the channel has a receiver, and blocks for ever
(`none`) when it has none. -/
def Chan.send {α : Type} (c : Chan α) (v : α) : Option (Chan α) :=
  if c.receiver then some ⟨c.receiver, c.delivered ++ [v]⟩ else none

/-- The goroutine that `Create` starts, fed with the values sent on `eventCh`: it registers
every directory it receives, and returns at the first registration that fails. The result is the
notification source afterwards, and whether the goroutine still receives. -/
def registerDiscovered (w : World) : Watcher → List Path → Watcher × Bool
  | s, [] => (s, true)
  | s, p :: ps =>
    if p.IsDir w then
      match Watcher.Add w s p.toString with
      | (s1, none) => registerDiscovered w s1 ps
      | (s1, some _) => (s1, false)
    else registerDiscovered w s ps

/-! ## `watcher/watcher_linux.go` -/

namespace watcher_linux

/-- The struct `TreeWatcher`. `Errors` carries Go `error` values, nil included. The mutex has
no counterpart in a sequential embedding; `EventManager` is the debouncer, whose drained batch
is an argument of `drain` below. -/
structure TreeWatcher where
  FileTree : FileNode
  Watcher : FsShadow.Watcher
  Path : FsShadow.Path
  ParentPath : FsShadow.Path
  Events : Chan EventTransaction
  Errors : Chan (Option Error)

/-- What a method of the watcher gives back: the watcher afterwards, and how the call ended. -/
abbrev Step (α : Type) := TreeWatcher × Outcome α

/-- The method `TreeWatcher.Remove` (lines 56-66). -/
def TreeWatcher.Remove (w : World) (tw : TreeWatcher) (path : FsShadow.Path) :
    Step (Option FileNode × Option Error) :=
  let eventPath := path.ExcludePath tw.ParentPath
  let r := FileNode.Remove w tw.FileTree eventPath
  let tw1 := { tw with FileTree := r.tree }
  match r.err, r.node with
  | none, some node =>
    if node.Meta.IsDir then
      match Watcher.Remove w tw1.Watcher path.toString with
      | (s, some err) => ({ tw1 with Watcher := s }, .returned (none, some err))
      | (s, none) => ({ tw1 with Watcher := s }, .returned (some node, none))
    else (tw1, .returned (some node, none))
  | err, node => (tw1, .returned (node, err))

/-- The method `TreeWatcher.Write` (lines 68-77): for a path that is not a directory it calls
the tree's `Update` and returns `nil, err`, dropping the node. -/
def TreeWatcher.Write (w : World) (tw : TreeWatcher) (path : FsShadow.Path) :
    Step (Option FileNode × Option Error) :=
  if !path.IsDir w then
    let eventPath := path.ExcludePath tw.ParentPath
    let r := FileNode.Update w tw.FileTree eventPath path
    ({ tw with FileTree := r.tree }, .returned (none, r.err))
  else (tw, .returned (none, none))

/-- The method `TreeWatcher.Create` (lines 79-113). The goroutine registers the directories
that the tree's `Create` sends on `eventCh`; when it has returned early, the next send on the
unbuffered `eventCh`, at the latest the closing `eventCh <- nil`, blocks for ever. -/
def TreeWatcher.Create (w : World) (tw : TreeWatcher) (path : FsShadow.Path)
    (_extra : Option ExtraPayload) : Step (Option FileNode × Option Error) :=
  if !path.Exists w then (tw, .returned (none, some .PathDoesNotExist)) else
  let eventPath := path.ExcludePath tw.ParentPath
  let r := FileNode.Create w tw.FileTree eventPath path
  let g := registerDiscovered w tw.Watcher r.sent
  let tw1 := { tw with FileTree := r.tree, Watcher := g.1 }
  if g.2 then (tw1, .returned (r.node, r.err)) else (tw1, .blocked)

/-- The method `TreeWatcher.Rename` (lines 115-129). A nil `toPath` is dereferenced when the
arguments of the tree's `Rename` are evaluated, a nil node at `node.Meta`. -/
def TreeWatcher.Rename (w : World) (tw : TreeWatcher) (fromPath : FsShadow.Path)
    (toPath : Option FsShadow.Path) : Step (Option FileNode × Option Error) :=
  match toPath with
  | none => (tw, .panicked)
  | some toPath =>
    let r := FileNode.Rename w tw.FileTree (fromPath.ExcludePath tw.ParentPath)
      (toPath.ExcludePath tw.ParentPath)
    let tw1 := { tw with FileTree := r.tree }
    match r.err with
    | some err => (tw1, .returned (none, some err))
    | none =>
      match r.node with
      | none => (tw1, .panicked)
      | some node =>
        if node.Meta.IsDir then
          match Watcher.Remove w tw1.Watcher fromPath.toString with
          | (s, some err) => ({ tw1 with Watcher := s }, .returned (none, some err))
          | (s, none) =>
            let a := Watcher.Add w s toPath.toString
            ({ tw1 with Watcher := a.1 }, .returned (some node, a.2))
        else (tw1, .returned (some node, none))

/-- The method `TreeWatcher.Move` (lines 131-137). -/
def TreeWatcher.Move (w : World) (tw : TreeWatcher) (fromPath : FsShadow.Path)
    (toPath : Option FsShadow.Path) : Step (Option FileNode × Option Error) :=
  match toPath with
  | none => (tw, .panicked)
  | some toPath =>
    let r := FileNode.Move w tw.FileTree (fromPath.ExcludePath tw.ParentPath)
      (toPath.ExcludePath tw.ParentPath)
    let tw1 := { tw with FileTree := r.tree }
    match r.err with
    | some err => (tw1, .returned (none, some err))
    | none => (tw1, .returned (r.node, none))

/-- The switch of `Handler` (lines 153-173): the method the event type selects, and an error
for every other type. -/
def TreeWatcher.dispatch (w : World) (tw : TreeWatcher) (e : Event)
    (extra : Option ExtraPayload) : Step (Option FileNode × Option Error) :=
  match e.Typ with
  | .Remove => tw.Remove w e.FromPath
  | .Write => tw.Write w e.FromPath
  | .Create => tw.Create w e.FromPath extra
  | .Rename => tw.Rename w e.FromPath e.ToPath
  | .Move => tw.Move w e.FromPath e.ToPath
  | .Other _ => (tw, .returned (none, some .UnhandledEventKind))

/-- The method `TreeWatcher.Handler` (lines 141-179): after the switch an error is returned
without a transaction; otherwise `*node` is dereferenced to make the transaction. -/
def TreeWatcher.Handler (w : World) (tw : TreeWatcher) (e : Event)
    (extras : List ExtraPayload) : Step (Option EventTransaction × Option Error) :=
  let extra := extras.head?
  match tw.dispatch w e extra with
  | (tw1, .returned (_, some err)) => (tw1, .returned (none, some err))
  | (tw1, .returned (none, none)) => (tw1, .panicked)
  | (tw1, .returned (some node, none)) =>
    (tw1, .returned (some (makeEventTransaction node e.Typ), none))
  | (tw1, .panicked) => (tw1, .panicked)
  | (tw1, .blocked) => (tw1, .blocked)

/-- The body of the drain ticker of `Start` (lines 215-223) for the batch `newEvents` that
`Process()` returned: every event goes through `Handler`; an error is sent on `Errors`; then
`*txn` is sent on `Events`, whether or not there was an error. -/
def TreeWatcher.drain (w : World) : TreeWatcher → List Event → Step Unit
  | tw, [] => (tw, .returned ())
  | tw, e :: newEvents =>
    match tw.Handler w e [] with
    | (tw1, .panicked) => (tw1, .panicked)
    | (tw1, .blocked) => (tw1, .blocked)
    | (tw1, .returned (txn, err)) =>
      match (if err.isSome then tw1.Errors.send err else some tw1.Errors) with
      | none => (tw1, .blocked)
      | some errors =>
        let tw2 := { tw1 with Errors := errors }
        match txn with
        | none => (tw2, .panicked)
        | some t =>
          match tw2.Events.send t with
          | none => (tw2, .blocked)
          | some events => TreeWatcher.drain w { tw2 with Events := events } newEvents

/-- The function `NewPathWatcher` (lines 235-274). The two channels are made here and the
watcher has not been handed to anyone yet, so no goroutine receives from them. `tw.Start()`
only starts the background goroutines. -/
def NewPathWatcher (w : World) (fsPath : String) :
    Outcome (Option TreeWatcher × Option EventTransaction × Option Error) :=
  let path := NewFSPath fsPath
  if !path.IsDir w then .returned (none, none, some .NotDirectory) else
  match w.watcherErr with
  | some err => .returned (none, none, some err)
  | none =>
    let root := FileNode.mk path.Name ⟨true, ""⟩ []
    let tw : TreeWatcher :=
      { FileTree := root, ParentPath := path.ParentPath, Path := path, Watcher := ⟨[]⟩,
        Events := Chan.make EventTransaction, Errors := Chan.make (Option Error) }
    let e : Event := { FromPath := path, Typ := .Create, ToPath := none }
    match tw.Handler w e [] with
    | (_, .panicked) => .panicked
    | (_, .blocked) => .blocked
    | (tw1, .returned (txn, err)) =>
      match tw1.Errors.send err with
      | none => .blocked
      | some errors =>
        let tw2 := { tw1 with Errors := errors }
        match err with
        | some err => .returned (none, none, some err)
        | none =>
          match txn with
          | none => .panicked
          | some t =>
            match tw2.Events.send t with
            | none => .blocked
            | some events => .returned (some { tw2 with Events := events }, some t, none)

end watcher_linux

/-! ## `watcher/fs_watcher.go` -/

namespace fs_watcher

/-- The struct `TreeWatcher` of `fs_watcher.go`; its `Events` channel is never used. -/
structure TreeWatcher where
  FileTree : FileNode
  Watcher : FsShadow.Watcher
  Path : FsShadow.Path
  ParentPath : FsShadow.Path

/-- What a method of the watcher gives back: the watcher afterwards, and how the call ended. -/
abbrev Step (α : Type) := TreeWatcher × Outcome α

/-- The method `TreeWatcher.Remove` (lines 46-56); the tree's `Remove` gives an error only. -/
def TreeWatcher.Remove (w : World) (tw : TreeWatcher) (path : FsShadow.Path) :
    Step (Option Error) :=
  let eventPath := path.ExcludePath tw.ParentPath
  let r := FileNode.Remove w tw.FileTree eventPath
  let tw1 := { tw with FileTree := r.tree }
  if r.err.isNone && path.IsDir w then
    let d := Watcher.Remove w tw1.Watcher path.toString
    ({ tw1 with Watcher := d.1 }, .returned d.2)
  else (tw1, .returned r.err)

/-- The method `TreeWatcher.Write` (lines 58-65). -/
def TreeWatcher.Write (w : World) (tw : TreeWatcher) (path : FsShadow.Path) :
    Step (Option Error) :=
  if !path.IsDir w then
    let eventPath := path.ExcludePath tw.ParentPath
    let r := FileNode.Update w tw.FileTree eventPath path
    ({ tw with FileTree := r.tree }, .returned r.err)
  else (tw, .returned none)

/-- The method `TreeWatcher.Create` (lines 67-98); its goroutine is the one of
`watcher_linux.go` without the prints. -/
def TreeWatcher.Create (w : World) (tw : TreeWatcher) (path : FsShadow.Path) :
    Step (Option Error) :=
  if !path.Exists w then (tw, .returned (some .PathDoesNotExist)) else
  let eventPath := path.ExcludePath tw.ParentPath
  let r := FileNode.Create w tw.FileTree eventPath path
  let g := registerDiscovered w tw.Watcher r.sent
  let tw1 := { tw with FileTree := r.tree, Watcher := g.1 }
  if g.2 then (tw1, .returned r.err) else (tw1, .blocked)

/-- The method `TreeWatcher.Rename` (lines 100-105). -/
def TreeWatcher.Rename (w : World) (tw : TreeWatcher) (path : FsShadow.Path) :
    Step (Option Error) :=
  if !path.Exists w then tw.Remove w path else (tw, .returned none)

/-- The end of `EventHandler` after a case of its switch has assigned `err` (line 133): the
statement is `return nil`, so the method returns nil whatever `err` holds. -/
def TreeWatcher.returnNil : Step (Option Error) → Step (Option Error)
  | (tw1, .returned _err) => (tw1, .returned none)
  | (tw1, .panicked) => (tw1, .panicked)
  | (tw1, .blocked) => (tw1, .blocked)

/-- The method `TreeWatcher.EventHandler` (lines 107-134): a `Chmod` returns at once; the four
cases of the switch assign `err` and fall to the final `return nil`; the default case returns
its error. -/
def TreeWatcher.EventHandler (w : World) (tw : TreeWatcher) (op : fsnotify.Op)
    (path : String) : Step (Option Error) :=
  if op = fsnotify.Chmod then (tw, .returned none) else
  let pathIns := if tw.Path.IsVirtual then NewVirtualPath path else NewFSPath path
  if op = fsnotify.Remove then TreeWatcher.returnNil (tw.Remove w pathIns)
  else if op = fsnotify.Write then TreeWatcher.returnNil (tw.Write w pathIns)
  else if op = fsnotify.Create then TreeWatcher.returnNil (tw.Create w pathIns)
  else if op = fsnotify.Rename then TreeWatcher.returnNil (tw.Rename w pathIns)
  else (tw, .returned (some .UnhandledEventKind))

end fs_watcher

/-! ## Sample inputs -/

/-- A live filesystem: `/data/a/b/f.txt`, `/data/a/g.txt` and `/data/h.txt`. The notification
source can be constructed, refuses nothing and holds every watch it is asked to drop; a tree
operation that fails leaves the tree as it was. -/
def sampleWorld : World :=
  { disk := [.dir "data" [.dir "a" [.dir "b" [.file "f.txt" "c1"], .file "g.txt" "c2"],
      .file "h.txt" "c3"]],
    virtExists := fun _ => false, virtIsDir := fun _ => false, watcherErr := none,
    refuses := fun _ => false, rmWatchFails := fun _ => false,
    leftByFailure := fun _ t => (t, []) }

/-- The filesystem of `sampleWorld` after `/data/a` has been renamed to `/data/z`, with a
notification source that refuses to register `/data/z`. -/
def refusingWorld : World :=
  { disk := [.dir "data" [.dir "z" [.dir "b" [.file "f.txt" "c1"], .file "g.txt" "c2"],
      .file "h.txt" "c3"]],
    virtExists := fun _ => false, virtIsDir := fun _ => false, watcherErr := none,
    refuses := fun name => name == "/data/z", rmWatchFails := fun _ => false,
    leftByFailure := fun _ t => (t, []) }

/-- The shadow node of the directory `/data/a` of `sampleWorld`. -/
def sampleDirA : FileNode :=
  .mk "a" ⟨true, ""⟩ [.mk "b" ⟨true, ""⟩ [.mk "f.txt" ⟨false, "c1"⟩ []],
    .mk "g.txt" ⟨false, "c2"⟩ []]

/-- The shadow tree of `sampleWorld` below `/data`. -/
def sampleTree : FileNode :=
  .mk "data" ⟨true, ""⟩ [sampleDirA, .mk "h.txt" ⟨false, "c3"⟩ []]

/-- The watcher that `NewPathWatcher` builds for `/data` (lines 249-264) before the initial
`Create`: an empty root node, an empty watch set, two fresh channels. -/
def freshWatcher : watcher_linux.TreeWatcher :=
  { FileTree := .mk "data" ⟨true, ""⟩ [], Watcher := ⟨[]⟩,
    Path := NewFSPath "/data", ParentPath := (NewFSPath "/data").ParentPath,
    Events := Chan.make EventTransaction, Errors := Chan.make (Option Error) }

/-- A watcher on `/data` in its steady state: the tree and the watch set are those that the
initial `Create` of the root builds in `sampleWorld`, and the host receives from both
channels. -/
def sampleWatcher : watcher_linux.TreeWatcher :=
  { FileTree := sampleTree, Watcher := ⟨["/data", "/data/a", "/data/a/b"]⟩,
    Path := NewFSPath "/data", ParentPath := (NewFSPath "/data").ParentPath,
    Events := ⟨true, []⟩, Errors := ⟨true, []⟩ }

/-- The watcher of `fs_watcher.go` on `/data` with the tree and the watch set of
`sampleWatcher`. -/
def sampleFsWatcher : fs_watcher.TreeWatcher :=
  { FileTree := sampleTree, Watcher := ⟨["/data", "/data/a", "/data/a/b"]⟩,
    Path := NewFSPath "/data", ParentPath := (NewFSPath "/data").ParentPath }

/-- The event: `/data/h.txt` was written. -/
def writeH : Event := ⟨.Write, NewFSPath "/data/h.txt", none⟩

/-- The event: `/data/h.txt` was removed. -/
def removeH : Event := ⟨.Remove, NewFSPath "/data/h.txt", none⟩

/-- The event: `/data/x.txt`, which the tree does not hold, was removed. -/
def removeX : Event := ⟨.Remove, NewFSPath "/data/x.txt", none⟩

/-- The event: the directory `/data/a` was removed. -/
def removeA : Event := ⟨.Remove, NewFSPath "/data/a", none⟩

/-- The event: the directory `/data/a` was renamed to `/data/z`. -/
def renameAZ : Event := ⟨.Rename, NewFSPath "/data/a", some (NewFSPath "/data/z")⟩

/-- The event: the file `/data/h.txt` was renamed to `/data/k.txt`. -/
def renameHK : Event := ⟨.Rename, NewFSPath "/data/h.txt", some (NewFSPath "/data/k.txt")⟩

/-- The event: `/data/nope`, which does not exist, was created. -/
def createNope : Event := ⟨.Create, NewFSPath "/data/nope", none⟩

/-- An event of a type outside the five operations. -/
def otherEvent : Event := ⟨.Other 7, NewFSPath "/data/h.txt", none⟩

/-! ## Facts about the shadow tree -/

theorem FileNode.child?_name {n c : FileNode} {s : String} (h : n.child? s = some c) :
    c.Name = s := by
  unfold FileNode.child? at h
  have := List.find?_some h
  simpa using this

theorem FileNode.dropChild_child? (n : FileNode) (s : String) :
    (n.dropChild s).child? s = none := by
  simp [FileNode.child?, FileNode.dropChild, FileNode.Subs]

theorem FileNode.find?_map_set (l : List FileNode) (s : String) (c c1 : FileNode)
    (h : l.find? (fun x => x.Name == s) = some c) (h1 : c1.Name = s) :
    (l.map (fun x => if x.Name == c1.Name then c1 else x)).find? (fun x => x.Name == s)
      = some c1 := by
  induction l with
  | nil => simp at h
  | cons x xs ih =>
    simp only [List.map_cons, List.find?_cons] at h ⊢
    by_cases hx : x.Name = s
    · have e1 : (x.Name == c1.Name) = true := by simp [hx, h1]
      have e2 : (c1.Name == s) = true := by simp [h1]
      simp only [e1, if_true, e2]
    · have hx1 : (x.Name == s) = false := by simpa using hx
      have hx2 : (x.Name == c1.Name) = false := by rw [h1]; exact hx1
      rw [hx1] at h
      simp only [hx2, hx1, Bool.false_eq_true, if_false]
      exact ih h

theorem FileNode.setChild_child? {n c c1 : FileNode} {s : String}
    (h : n.child? s = some c) (h1 : c1.Name = s) :
    (n.setChild c1).child? s = some c1 := by
  unfold FileNode.child? at h ⊢
  simp only [FileNode.setChild, FileNode.Subs]
  exact FileNode.find?_map_set _ _ _ _ h h1

theorem FileNode.detach_name {n n1 r : FileNode} {segs : List String}
    (h : n.detach segs = .ok (n1, r)) : n1.Name = n.Name := by
  cases segs with
  | nil => simp [FileNode.detach] at h
  | cons s rest =>
    unfold FileNode.detach at h
    split at h
    · cases h
    · split at h
      · injection h with h
        injection h with h2 h3
        rw [← h2]; rfl
      · split at h
        · cases h
        · injection h with h
          injection h with h2 h3
          rw [← h2]; rfl

theorem FileNode.detach_descend {segs : List String} : ∀ {n n1 r : FileNode},
    n.detach segs = .ok (n1, r) → ∀ suffix, n1.descend (segs ++ suffix) = none := by
  induction segs with
  | nil => intro n n1 r h; simp [FileNode.detach] at h
  | cons s rest ih =>
    intro n n1 r h suffix
    unfold FileNode.detach at h
    split at h
    · cases h
    · rename_i c hc
      split at h
      · injection h with h
        injection h with h2 h3
        subst h2
        simp [FileNode.descend, FileNode.dropChild_child?]
      · split at h
        · cases h
        · rename_i c1 r1 hd
          injection h with h
          injection h with h2 h3
          subst h2
          have hn : c1.Name = s := by
            rw [FileNode.detach_name hd]; exact FileNode.child?_name hc
          simp only [List.cons_append, FileNode.descend, FileNode.setChild_child? hc hn]
          exact ih hd suffix

theorem FileNode.detach_found {segs : List String} : ∀ {n n1 r : FileNode},
    n.detach segs = .ok (n1, r) → n.descend segs = some r := by
  induction segs with
  | nil => intro n n1 r h; simp [FileNode.detach] at h
  | cons s rest ih =>
    intro n n1 r h
    unfold FileNode.detach at h
    split at h
    · cases h
    · rename_i c hc
      split at h
      · injection h with h
        injection h with h2 h3
        subst h3
        simp [FileNode.descend, hc]
      · split at h
        · cases h
        · rename_i c1 r1 hd
          injection h with h
          injection h with h2 h3
          subst h3
          simp only [FileNode.descend, hc]
          exact ih hd

theorem FileNode.relSegs_ok {t : FileNode} {p : Path} {segs : List String}
    (h : t.relSegs (some p) = .ok segs) : p.segs = t.Name :: segs := by
  unfold FileNode.relSegs at h
  dsimp only at h
  split at h
  · cases h
  · rename_i r rest hp
    split at h
    · rename_i hr
      injection h with h
      rw [hp, hr, h]
    · cases h

theorem FileNode.Remove_ok {w : World} {t : FileNode} {rel : Option Path}
    (h : (FileNode.Remove w t rel).err = none) :
    ∃ p segs t1 n, rel = some p ∧ p.segs = t.Name :: segs ∧ t.detach segs = .ok (t1, n) ∧
      (FileNode.Remove w t rel).tree = t1 ∧ (FileNode.Remove w t rel).node = some n := by
  cases rel with
  | none => simp [FileNode.Remove, FileNode.relSegs, TreeResult.failed] at h
  | some p =>
    unfold FileNode.Remove at h ⊢
    split at h
    · simp [TreeResult.failed] at h
    · rename_i segs hs
      split at h
      · simp [TreeResult.failed] at h
      · rename_i t1 n hd
        refine ⟨p, segs, t1, n, rfl, FileNode.relSegs_ok hs, hd, ?_, ?_⟩ <;> simp [hs, hd]

theorem FileNode.Search_gone {t t1 n : FileNode} {p : Path} {segs : List String}
    (hp : p.segs = t.Name :: segs) (hd : t.detach segs = .ok (t1, n)) (suffix : List String)
    (v : Bool) : t1.Search (some ⟨p.segs ++ suffix, v⟩) = none := by
  unfold FileNode.Search FileNode.relSegs
  simp only [hp, List.cons_append, FileNode.detach_name hd, if_true]
  exact FileNode.detach_descend hd suffix

theorem FileNode.Search_found {t t1 n : FileNode} {p : Path} {segs : List String}
    (hp : p.segs = t.Name :: segs) (hd : t.detach segs = .ok (t1, n)) :
    t.Search (some p) = some n := by
  unfold FileNode.Search FileNode.relSegs
  simp only [hp, if_true]
  exact FileNode.detach_found hd

/-! ## Facts about the notification source -/

theorem Watcher_Remove_ok {w : World} {s s1 : Watcher} {a : String}
    (h : Watcher.Remove w s a = (s1, none)) :
    a ∈ s.watches ∧ s1.watches = s.watches.filter (fun q => q ≠ a) := by
  unfold Watcher.Remove at h
  split at h
  · rename_i ha
    split at h
    · cases h
    · injection h with h _
      subst h
      exact ⟨ha, rfl⟩
  · cases h

theorem Watcher_swap_mem (w : World) (s s1 s2 : Watcher) (a b : String)
    (h1 : Watcher.Remove w s a = (s1, none)) (h2 : Watcher.Add w s1 b = (s2, none))
    (q : String) : q ∈ s2.watches ↔ (q ∈ s.watches ∧ q ≠ a) ∨ q = b := by
  have hs1 := (Watcher_Remove_ok h1).2
  unfold Watcher.Add at h2
  split at h2
  · cases h2
  · split at h2
    · rename_i hb
      injection h2 with h2 _
      subst h2
      rw [hs1] at hb ⊢
      constructor
      · intro hq
        left
        simpa using hq
      · rintro (hq | hq)
        · simpa using hq
        · subst hq; exact hb
    · injection h2 with h2 _
      subst h2
      simp [hs1]

namespace watcher_linux

/-! ## `watcher_linux.go`: the channels are left alone by `Handler` -/

theorem Remove_chans (w : World) (tw : TreeWatcher) (path : FsShadow.Path) :
    (tw.Remove w path).1.Events = tw.Events ∧ (tw.Remove w path).1.Errors = tw.Errors := by
  unfold TreeWatcher.Remove
  dsimp only
  constructor
  all_goals repeat' split
  all_goals rfl

theorem Write_chans (w : World) (tw : TreeWatcher) (path : FsShadow.Path) :
    (tw.Write w path).1.Events = tw.Events ∧ (tw.Write w path).1.Errors = tw.Errors := by
  unfold TreeWatcher.Write
  constructor
  all_goals repeat' split
  all_goals rfl

theorem Create_chans (w : World) (tw : TreeWatcher) (path : FsShadow.Path)
    (extra : Option ExtraPayload) :
    (tw.Create w path extra).1.Events = tw.Events ∧
      (tw.Create w path extra).1.Errors = tw.Errors := by
  unfold TreeWatcher.Create
  dsimp only
  constructor
  all_goals repeat' split
  all_goals rfl

theorem Rename_chans (w : World) (tw : TreeWatcher) (fromPath : FsShadow.Path)
    (toPath : Option FsShadow.Path) :
    (tw.Rename w fromPath toPath).1.Events = tw.Events ∧
      (tw.Rename w fromPath toPath).1.Errors = tw.Errors := by
  unfold TreeWatcher.Rename
  constructor
  all_goals repeat' (first | split | dsimp only)

theorem Move_chans (w : World) (tw : TreeWatcher) (fromPath : FsShadow.Path)
    (toPath : Option FsShadow.Path) :
    (tw.Move w fromPath toPath).1.Events = tw.Events ∧
      (tw.Move w fromPath toPath).1.Errors = tw.Errors := by
  unfold TreeWatcher.Move
  constructor
  all_goals repeat' (first | split | dsimp only)

theorem dispatch_chans (w : World) (tw : TreeWatcher) (e : Event)
    (extra : Option ExtraPayload) :
    (tw.dispatch w e extra).1.Events = tw.Events ∧
      (tw.dispatch w e extra).1.Errors = tw.Errors := by
  unfold TreeWatcher.dispatch
  split
  · exact Remove_chans _ _ _
  · exact Write_chans _ _ _
  · exact Create_chans _ _ _ _
  · exact Rename_chans _ _ _ _
  · exact Move_chans _ _ _ _
  · exact ⟨rfl, rfl⟩

theorem Handler_fst (w : World) (tw : TreeWatcher) (e : Event) (extras : List ExtraPayload) :
    (tw.Handler w e extras).1 = (tw.dispatch w e extras.head?).1 := by
  unfold TreeWatcher.Handler
  dsimp only
  split <;> simp_all

theorem Handler_chans (w : World) (tw : TreeWatcher) (e : Event)
    (extras : List ExtraPayload) :
    (tw.Handler w e extras).1.Events = tw.Events ∧
      (tw.Handler w e extras).1.Errors = tw.Errors := by
  rw [Handler_fst]
  exact dispatch_chans _ _ _ _

/-! ## `watcher_linux.go`: what the code does on the paths of the claims -/

/-- The method `Write` never hands a node to `Handler`. -/
theorem Write_never_returns_node (w : World) (tw : TreeWatcher) (path : FsShadow.Path) :
    ∃ tw1 err, tw.Write w path = (tw1, .returned (none, err)) := by
  unfold TreeWatcher.Write
  split <;> exact ⟨_, _, rfl⟩

/-- Every Write event on a file whose tree `Update` succeeds makes `Handler` dereference the
nil node. -/
theorem Handler_Write_panics (w : World) (tw : TreeWatcher) (e : Event)
    (extras : List ExtraPayload) (hT : e.Typ = .Write) (hF : e.FromPath.IsDir w = false)
    (hU : (FileNode.Update w tw.FileTree (e.FromPath.ExcludePath tw.ParentPath)
      e.FromPath).err = none) :
    (tw.Handler w e extras).2 = .panicked := by
  simp [TreeWatcher.Handler, TreeWatcher.dispatch, TreeWatcher.Write, hT, hF, hU]

/-- In the drain loop an event that `Handler` fails has its error published, and then the nil
transaction is dereferenced: the rest of the batch is never reached. -/
theorem drain_failed_event_panics (w : World) (tw tw1 : TreeWatcher) (e : Event)
    (rest : List Event) (err : Error)
    (hH : tw.Handler w e [] = (tw1, .returned (none, some err)))
    (hRecv : tw.Errors.receiver = true) :
    tw.drain w (e :: rest) =
      ({ tw1 with Errors := ⟨true, tw1.Errors.delivered ++ [some err]⟩ }, .panicked) := by
  have hc := (Handler_chans w tw e []).2
  rw [hH] at hc
  dsimp only at hc
  have hr : tw1.Errors.receiver = true := by rw [hc]; exact hRecv
  simp [TreeWatcher.drain, hH, Chan.send, hr]

/-- In the drain loop an event that `Handler` applies has its transaction published, and the
loop goes on with the rest of the batch. -/
theorem drain_applied_event_continues (w : World) (tw tw1 : TreeWatcher) (e : Event)
    (rest : List Event) (t : EventTransaction)
    (hH : tw.Handler w e [] = (tw1, .returned (some t, none)))
    (hRecv : tw.Events.receiver = true) :
    tw.drain w (e :: rest) =
      TreeWatcher.drain w { tw1 with Events := ⟨true, tw1.Events.delivered ++ [t]⟩ } rest := by
  have hc := (Handler_chans w tw e []).1
  rw [hH] at hc
  dsimp only at hc
  have hr : tw1.Events.receiver = true := by rw [hc]; exact hRecv
  simp [TreeWatcher.drain, hH, Chan.send, hr]

/-- The function `NewPathWatcher` never returns a watcher handle. -/
theorem NewPathWatcher_no_handle (w : World) (fsPath : String) (tw : TreeWatcher)
    (txn : Option EventTransaction) (err : Option Error) :
    NewPathWatcher w fsPath ≠ .returned (some tw, txn, err) := by
  intro h
  unfold NewPathWatcher at h
  dsimp only at h
  split at h
  · cases h
  · split at h
    · cases h
    · have hc := (Handler_chans w
        { FileTree := FileNode.mk (NewFSPath fsPath).Name ⟨true, ""⟩ [], Watcher := ⟨[]⟩,
          Path := NewFSPath fsPath, ParentPath := (NewFSPath fsPath).ParentPath,
          Events := Chan.make EventTransaction, Errors := Chan.make (Option Error) }
        { Typ := .Create, FromPath := NewFSPath fsPath, ToPath := none } []).2
      split at h
      · cases h
      · cases h
      · rename_i tw1 txn1 err1 heq
        rw [heq] at hc
        have hs : tw1.Errors.send err1 = none := by
          simp only [Chan.send]
          dsimp only at hc
          rw [hc]
          simp [Chan.make]
        rw [hs] at h
        cases h

end watcher_linux

namespace fs_watcher

/-- The final `return nil` of `EventHandler` returns no error. -/
theorem returnNil_no_error (r : Step (Option Error)) (e : Error) :
    (TreeWatcher.returnNil r).2 ≠ .returned (some e) := by
  rcases r with ⟨tw1, o⟩
  cases o <;> simp [TreeWatcher.returnNil]

/-- The method `EventHandler` returns an error for exactly the operations outside `Chmod`,
`Remove`, `Write`, `Create` and `Rename`, whatever the method it dispatches to returns. -/
theorem EventHandler_error_iff (w : World) (tw : TreeWatcher) (op : fsnotify.Op)
    (path : String) (e : Error) :
    (tw.EventHandler w op path).2 = .returned (some e) ↔
      (op ≠ fsnotify.Chmod ∧ op ≠ fsnotify.Remove ∧ op ≠ fsnotify.Write ∧
        op ≠ fsnotify.Create ∧ op ≠ fsnotify.Rename ∧ e = .UnhandledEventKind) := by
  unfold TreeWatcher.EventHandler
  by_cases h0 : op = fsnotify.Chmod
  · simp [h0]
  by_cases h1 : op = fsnotify.Remove
  · simp [h1, fsnotify.Chmod, fsnotify.Remove, fsnotify.Write, fsnotify.Create, fsnotify.Rename, returnNil_no_error]
  by_cases h2 : op = fsnotify.Write
  · simp [h2, fsnotify.Chmod, fsnotify.Remove, fsnotify.Write, fsnotify.Create, fsnotify.Rename, returnNil_no_error]
  by_cases h3 : op = fsnotify.Create
  · simp [h3, fsnotify.Chmod, fsnotify.Remove, fsnotify.Write, fsnotify.Create, fsnotify.Rename, returnNil_no_error]
  by_cases h4 : op = fsnotify.Rename
  · simp [h4, fsnotify.Chmod, fsnotify.Remove, fsnotify.Write, fsnotify.Create, fsnotify.Rename, returnNil_no_error]
  simp [h0, h1, h2, h3, h4, eq_comm]

end fs_watcher

/-! ## The claims -/

namespace watcher_linux

/-- C1, on a failing input: `/data/h.txt` is a file, the tree's `Update` for it succeeds and
returns the node, yet `Write` returns a nil node with a nil error, and `Handler` dereferences
the nil node instead of returning a Write transaction. -/
theorem Handler_Write_file_panics :
    writeH.FromPath.IsDir sampleWorld = false ∧
    (FileNode.Update sampleWorld sampleWatcher.FileTree
      (writeH.FromPath.ExcludePath sampleWatcher.ParentPath) writeH.FromPath).err = none ∧
    (FileNode.Update sampleWorld sampleWatcher.FileTree
      (writeH.FromPath.ExcludePath sampleWatcher.ParentPath) writeH.FromPath).node =
        some (.mk "h.txt" ⟨false, "c3"⟩ []) ∧
    (sampleWatcher.Write sampleWorld writeH.FromPath).2 = .returned (none, none) ∧
    (sampleWatcher.Handler sampleWorld writeH []).2 = .panicked :=
  ⟨rfl, rfl, rfl, rfl, rfl⟩

/-- C2, on a failing input: in the batch `[removeX, removeH]` the first event fails in
`Handler` and the second one would succeed; the drain loop publishes the error of the first,
then dereferences its nil transaction: no transaction is published and the second event is
never applied (the tree still holds `h.txt`). -/
theorem drain_stops_at_failed_event :
    sampleWatcher.Handler sampleWorld removeX [] =
      (sampleWatcher, .returned (none, some .NotFound)) ∧
    (sampleWatcher.Handler sampleWorld removeH []).2 =
      .returned (some (makeEventTransaction (.mk "h.txt" ⟨false, "c3"⟩ []) .Remove), none) ∧
    (sampleWatcher.drain sampleWorld [removeX, removeH]).2 = .panicked ∧
    (sampleWatcher.drain sampleWorld [removeX, removeH]).1.Errors.delivered =
      [some .NotFound] ∧
    (sampleWatcher.drain sampleWorld [removeX, removeH]).1.Events.delivered = [] ∧
    (sampleWatcher.drain sampleWorld [removeX, removeH]).1.FileTree = sampleTree :=
  ⟨rfl, rfl, rfl, rfl, rfl, rfl⟩

/-- C3, counterexample: the directory `/data/a` holds the directory `/data/a/b`, and both
are watched. After the successful `Handler` call for the removal of `/data/a` the watch of
`/data/a/b` is still registered: the subtree had two directories and the watch set shrank by
one. -/
theorem Handler_Remove_leaves_descendant_watch :
    sampleWatcher.FileTree.Search (removeA.FromPath.ExcludePath sampleWatcher.ParentPath) =
      some sampleDirA ∧
    sampleDirA.Meta.IsDir = true ∧
    (sampleWatcher.Handler sampleWorld removeA []).2 =
      .returned (some (makeEventTransaction sampleDirA .Remove), none) ∧
    sampleDirA.dirCount = 2 ∧
    sampleWatcher.Watcher.watches = ["/data", "/data/a", "/data/a/b"] ∧
    (sampleWatcher.Handler sampleWorld removeA []).1.Watcher.watches =
      ["/data", "/data/a/b"] ∧
    ¬ ((sampleWatcher.Handler sampleWorld removeA []).1.Watcher.watches.length +
        sampleDirA.dirCount = sampleWatcher.Watcher.watches.length) :=
  ⟨rfl, rfl, rfl, rfl, rfl, rfl, by decide⟩

/-- C3, amended: for every Remove event whose target is a directory node of the tree, after a
successful `Handler` call the transaction carries that node, the node and every descendant are
gone from the tree, and the notification source has deregistered the path of the event, which
was registered, and nothing else: the watch set is the previous one without that path. -/
theorem Handler_Remove_directory (w : World) (tw tw1 : TreeWatcher) (e : Event)
    (extras : List ExtraPayload) (node : FileNode) (txn : EventTransaction)
    (hT : e.Typ = .Remove)
    (hS : tw.FileTree.Search (e.FromPath.ExcludePath tw.ParentPath) = some node)
    (hD : node.Meta.IsDir = true)
    (hH : tw.Handler w e extras = (tw1, .returned (some txn, none))) :
    txn = makeEventTransaction node .Remove ∧
    (∀ rel, e.FromPath.ExcludePath tw.ParentPath = some rel → ∀ suffix v,
      tw1.FileTree.Search (some ⟨rel.segs ++ suffix, v⟩) = none) ∧
    e.FromPath.toString ∈ tw.Watcher.watches ∧
    tw1.Watcher.watches = tw.Watcher.watches.filter (fun q => q ≠ e.FromPath.toString) := by
  have hE : (FileNode.Remove w tw.FileTree (e.FromPath.ExcludePath tw.ParentPath)).err =
      none := by
    cases hx : (FileNode.Remove w tw.FileTree (e.FromPath.ExcludePath tw.ParentPath)).err with
    | none => rfl
    | some err =>
      simp [TreeWatcher.Handler, TreeWatcher.dispatch, TreeWatcher.Remove, hT, hx] at hH
  obtain ⟨p, segs, t1, n, hrel, hp, hd, htree, hnode⟩ := FileNode.Remove_ok hE
  have hn : n = node := by
    have := FileNode.Search_found hp hd
    rw [hrel] at hS
    rw [hS] at this
    exact (Option.some.inj this).symm
  subst hn
  cases hR : Watcher.Remove w tw.Watcher e.FromPath.toString with
  | mk s err =>
    cases err with
    | some err =>
      simp [TreeWatcher.Handler, TreeWatcher.dispatch, TreeWatcher.Remove, hT, hE, hnode, hD,
        hR] at hH
    | none =>
      simp [TreeWatcher.Handler, TreeWatcher.dispatch, TreeWatcher.Remove, hT, hE, hnode, hD,
        hR] at hH
      obtain ⟨h1, h2⟩ := hH
      subst h1
      obtain ⟨hmem, hfil⟩ := Watcher_Remove_ok hR
      refine ⟨h2.symm, ?_, hmem, hfil⟩
      intro rel hrel2 suffix v
      rw [hrel] at hrel2
      cases hrel2
      dsimp only
      rw [htree]
      exact FileNode.Search_gone hp hd suffix v

/-- C3, amended, at the removal of `/data/a` from `sampleWatcher`. -/
theorem Handler_Remove_directory_witness :
    (removeA.Typ = .Remove ∧
      sampleWatcher.FileTree.Search (removeA.FromPath.ExcludePath sampleWatcher.ParentPath) =
        some sampleDirA ∧
      sampleDirA.Meta.IsDir = true ∧
      sampleWatcher.Handler sampleWorld removeA [] =
        ({ sampleWatcher with
            FileTree := .mk "data" ⟨true, ""⟩ [.mk "h.txt" ⟨false, "c3"⟩ []],
            Watcher := ⟨["/data", "/data/a/b"]⟩ },
          .returned (some (makeEventTransaction sampleDirA .Remove), none))) ∧
    (FileNode.mk "data" ⟨true, ""⟩ [.mk "h.txt" ⟨false, "c3"⟩ []]).Search
        (some ⟨["data", "a"] ++ ["b", "f.txt"], false⟩) = none ∧
    "/data/a" ∈ sampleWatcher.Watcher.watches ∧
    ["/data", "/data/a/b"] =
      sampleWatcher.Watcher.watches.filter (fun q => q ≠ "/data/a") :=
  ⟨⟨rfl, rfl, rfl, rfl⟩,
    (Handler_Remove_directory sampleWorld sampleWatcher
      { sampleWatcher with
        FileTree := .mk "data" ⟨true, ""⟩ [.mk "h.txt" ⟨false, "c3"⟩ []],
        Watcher := ⟨["/data", "/data/a/b"]⟩ }
      removeA [] sampleDirA (makeEventTransaction sampleDirA .Remove) rfl rfl rfl rfl).2.1
        ⟨["data", "a"], false⟩ rfl ["b", "f.txt"] false,
    (Handler_Remove_directory sampleWorld sampleWatcher
      { sampleWatcher with
        FileTree := .mk "data" ⟨true, ""⟩ [.mk "h.txt" ⟨false, "c3"⟩ []],
        Watcher := ⟨["/data", "/data/a/b"]⟩ }
      removeA [] sampleDirA (makeEventTransaction sampleDirA .Remove) rfl rfl rfl rfl).2.2.1,
    (Handler_Remove_directory sampleWorld sampleWatcher
      { sampleWatcher with
        FileTree := .mk "data" ⟨true, ""⟩ [.mk "h.txt" ⟨false, "c3"⟩ []],
        Watcher := ⟨["/data", "/data/a/b"]⟩ }
      removeA [] sampleDirA (makeEventTransaction sampleDirA .Remove) rfl rfl rfl rfl).2.2.2⟩

/-- C4: for every Rename event for which the tree's `Rename` succeeds and returns the node:
if the node is a directory and both watch calls succeed, `Handler` returns a Rename transaction
with that node, and the watch set afterwards is the previous one with the old path removed and
the new path added; if the node is a file, `Handler` returns a Rename transaction with that
node and the watch set is unchanged. -/
theorem Handler_Rename_success (w : World) (tw : TreeWatcher) (e : Event)
    (extras : List ExtraPayload) (toPath : FsShadow.Path) (node : FileNode)
    (hT : e.Typ = .Rename) (hTo : e.ToPath = some toPath)
    (hErr : (FileNode.Rename w tw.FileTree (e.FromPath.ExcludePath tw.ParentPath)
      (toPath.ExcludePath tw.ParentPath)).err = none)
    (hNode : (FileNode.Rename w tw.FileTree (e.FromPath.ExcludePath tw.ParentPath)
      (toPath.ExcludePath tw.ParentPath)).node = some node) :
    (node.Meta.IsDir = true → ∀ s1 s2 : Watcher,
      Watcher.Remove w tw.Watcher e.FromPath.toString = (s1, none) →
      Watcher.Add w s1 toPath.toString = (s2, none) →
      tw.Handler w e extras =
        ({ tw with
            FileTree := (FileNode.Rename w tw.FileTree (e.FromPath.ExcludePath tw.ParentPath)
              (toPath.ExcludePath tw.ParentPath)).tree,
            Watcher := s2 },
          .returned (some (makeEventTransaction node .Rename), none)) ∧
      ∀ q, q ∈ s2.watches ↔
        (q ∈ tw.Watcher.watches ∧ q ≠ e.FromPath.toString) ∨ q = toPath.toString) ∧
    (node.Meta.IsDir = false →
      tw.Handler w e extras =
        ({ tw with
            FileTree := (FileNode.Rename w tw.FileTree (e.FromPath.ExcludePath tw.ParentPath)
              (toPath.ExcludePath tw.ParentPath)).tree },
          .returned (some (makeEventTransaction node .Rename), none))) := by
  constructor
  · intro hD s1 s2 h1 h2
    refine ⟨?_, Watcher_swap_mem w _ _ _ _ _ h1 h2⟩
    simp [TreeWatcher.Handler, TreeWatcher.dispatch, TreeWatcher.Rename, hT, hTo, hErr, hNode,
      hD, h1, h2]
  · intro hD
    simp [TreeWatcher.Handler, TreeWatcher.dispatch, TreeWatcher.Rename, hT, hTo, hErr, hNode,
      hD]

/-- C4, at the rename of the directory `/data/a` to `/data/z` and of the file `/data/h.txt`
to `/data/k.txt`. -/
theorem Handler_Rename_success_witness :
    (renameAZ.Typ = .Rename ∧ renameAZ.ToPath = some (NewFSPath "/data/z") ∧
      renameHK.Typ = .Rename ∧ renameHK.ToPath = some (NewFSPath "/data/k.txt")) ∧
    (sampleWatcher.Handler sampleWorld renameAZ []).2 =
      .returned (some (makeEventTransaction (sampleDirA.withName "z") .Rename), none) ∧
    (sampleWatcher.Handler sampleWorld renameAZ []).1.Watcher.watches =
      ["/data", "/data/a/b", "/data/z"] ∧
    (sampleWatcher.Handler sampleWorld renameHK []).2 =
      .returned (some (makeEventTransaction (.mk "k.txt" ⟨false, "c3"⟩ []) .Rename), none) ∧
    (sampleWatcher.Handler sampleWorld renameHK []).1.Watcher = sampleWatcher.Watcher :=
  ⟨⟨rfl, rfl, rfl, rfl⟩,
    congrArg Prod.snd ((Handler_Rename_success sampleWorld sampleWatcher renameAZ []
      (NewFSPath "/data/z") (sampleDirA.withName "z") rfl rfl rfl rfl).1 rfl
        ⟨["/data", "/data/a/b"]⟩ ⟨["/data", "/data/a/b", "/data/z"]⟩ rfl rfl).1,
    congrArg (fun r => r.1.Watcher.watches)
      ((Handler_Rename_success sampleWorld sampleWatcher renameAZ []
      (NewFSPath "/data/z") (sampleDirA.withName "z") rfl rfl rfl rfl).1 rfl
        ⟨["/data", "/data/a/b"]⟩ ⟨["/data", "/data/a/b", "/data/z"]⟩ rfl rfl).1,
    congrArg Prod.snd ((Handler_Rename_success sampleWorld sampleWatcher renameHK []
      (NewFSPath "/data/k.txt") (.mk "k.txt" ⟨false, "c3"⟩ []) rfl rfl rfl rfl).2 rfl),
    congrArg (fun r => r.1.Watcher) ((Handler_Rename_success sampleWorld sampleWatcher renameHK []
      (NewFSPath "/data/k.txt") (.mk "k.txt" ⟨false, "c3"⟩ []) rfl rfl rfl rfl).2 rfl)⟩

/-- C5, on a failing input: `/data` is a directory, the notification source is constructed,
and the initial `Create` succeeds in `Handler` with the populated tree; then `NewPathWatcher`
sends on the `Errors` channel, which has no receiver yet, and blocks for ever instead of
returning the handle and the transaction. -/
theorem NewPathWatcher_blocks :
    (NewFSPath "/data").IsDir sampleWorld = true ∧
    sampleWorld.watcherErr = none ∧
    (freshWatcher.Handler sampleWorld ⟨.Create, NewFSPath "/data", none⟩ []).2 =
      .returned (some (makeEventTransaction sampleTree .Create), none) ∧
    (freshWatcher.Handler sampleWorld ⟨.Create, NewFSPath "/data", none⟩ []).1.FileTree =
      sampleTree ∧
    (freshWatcher.Handler sampleWorld ⟨.Create, NewFSPath "/data", none⟩ []).1.Errors.send
      none = none ∧
    NewPathWatcher sampleWorld "/data" = .blocked :=
  ⟨rfl, rfl, rfl, rfl, rfl, rfl⟩

/-- C6: for every event whose type is none of Create, Write, Remove, Rename, Move, `Handler`
returns an error and no transaction, and leaves the watcher, so the tree and the watch set, as
it was. -/
theorem Handler_unhandled_type (w : World) (tw : TreeWatcher) (e : Event)
    (extras : List ExtraPayload)
    (h : e.Typ ≠ .Create ∧ e.Typ ≠ .Write ∧ e.Typ ≠ .Remove ∧ e.Typ ≠ .Rename ∧
      e.Typ ≠ .Move) :
    tw.Handler w e extras = (tw, .returned (none, some .UnhandledEventKind)) := by
  obtain ⟨h1, h2, h3, h4, h5⟩ := h
  cases hT : e.Typ with
  | Other code => simp [TreeWatcher.Handler, TreeWatcher.dispatch, hT]
  | _ => simp_all

/-- C6, at an event of another type. -/
theorem Handler_unhandled_type_witness :
    (otherEvent.Typ ≠ .Create ∧ otherEvent.Typ ≠ .Write ∧ otherEvent.Typ ≠ .Remove ∧
      otherEvent.Typ ≠ .Rename ∧ otherEvent.Typ ≠ .Move) ∧
    sampleWatcher.Handler sampleWorld otherEvent [] =
      (sampleWatcher, .returned (none, some .UnhandledEventKind)) :=
  ⟨by decide, Handler_unhandled_type sampleWorld sampleWatcher otherEvent [] (by decide)⟩

/-- C8: for every Create event whose source path does not exist, `Handler` returns the error
`PathDoesNotExist` and no transaction, and leaves the watcher as it was: the tree's `Create` is
not invoked and nothing is registered with the notification source. -/
theorem Handler_Create_missing_path (w : World) (tw : TreeWatcher) (e : Event)
    (extras : List ExtraPayload) (hT : e.Typ = .Create) (hE : e.FromPath.Exists w = false) :
    tw.Handler w e extras = (tw, .returned (none, some .PathDoesNotExist)) := by
  simp [TreeWatcher.Handler, TreeWatcher.dispatch, TreeWatcher.Create, hT, hE]

/-- C8, at the creation of `/data/nope`, which does not exist. -/
theorem Handler_Create_missing_path_witness :
    (createNope.Typ = .Create ∧ createNope.FromPath.Exists sampleWorld = false) ∧
    sampleWatcher.Handler sampleWorld createNope [] =
      (sampleWatcher, .returned (none, some .PathDoesNotExist)) :=
  ⟨⟨rfl, rfl⟩, Handler_Create_missing_path sampleWorld sampleWatcher createNope [] rfl rfl⟩

/-- C10, counterexample: the tree's `Rename` of `/data/a` to `/data/z` succeeds, the old watch
is removed, and the source refuses the new one. `Handler` returns an error, and the tree and
the watch set are not the ones from before the call. -/
theorem Handler_error_after_mutation :
    (sampleWatcher.Handler refusingWorld renameAZ []).2 =
      .returned (none, some .WatchRegistrationFailed) ∧
    (sampleWatcher.Handler refusingWorld renameAZ []).1.FileTree =
      .mk "data" ⟨true, ""⟩ [.mk "h.txt" ⟨false, "c3"⟩ [], sampleDirA.withName "z"] ∧
    (sampleWatcher.Handler refusingWorld renameAZ []).1.Watcher.watches =
      ["/data", "/data/a/b"] ∧
    (sampleWatcher.Handler refusingWorld renameAZ []).1.FileTree ≠ sampleWatcher.FileTree ∧
    (sampleWatcher.Handler refusingWorld renameAZ []).1.Watcher ≠ sampleWatcher.Watcher :=
  ⟨rfl, rfl, rfl,
    fun h => absurd (congrArg (fun t => (FileNode.Search t (some ⟨["data", "a"], false⟩)).isSome) h)
      (by decide),
    by decide⟩

/-- C10, amended: `Handler` has no rollback. Whenever it returns an error it returns no
transaction, and the tree and the watch set are exactly what the calls made before the error
left. For an event of another type and for a Create of a path that does not exist they are the
same as before the call. When the tree operation fails, the tree is the one that operation left
and the watch set is the same as before the call (for a Create, with the directories registered
that the failed `Create` had reported). When the tree's `Remove` or `Rename` succeeds and the
watch deregistration or registration after it fails, the tree keeps the mutation, and the watch
set is the one the failed watch call left. -/
theorem Handler_error_frame (w : World) (tw tw1 : TreeWatcher) (e : Event)
    (extras : List ExtraPayload) (txn : Option EventTransaction) (err : Error)
    (hH : tw.Handler w e extras = (tw1, .returned (txn, some err))) :
    txn = none ∧
    match e.Typ, e.ToPath with
    | .Other _, _ =>
      err = .UnhandledEventKind ∧ tw1.FileTree = tw.FileTree ∧ tw1.Watcher = tw.Watcher
    | .Create, _ =>
      (e.FromPath.Exists w = false ∧ err = .PathDoesNotExist ∧
        tw1.FileTree = tw.FileTree ∧ tw1.Watcher = tw.Watcher) ∨
      (e.FromPath.Exists w = true ∧
        (FileNode.Create w tw.FileTree (e.FromPath.ExcludePath tw.ParentPath)
          e.FromPath).err = some err ∧
        tw1.FileTree = (FileNode.Create w tw.FileTree
          (e.FromPath.ExcludePath tw.ParentPath) e.FromPath).tree ∧
        tw1.Watcher = (registerDiscovered w tw.Watcher (FileNode.Create w tw.FileTree
          (e.FromPath.ExcludePath tw.ParentPath) e.FromPath).sent).1)
    | .Write, _ =>
      e.FromPath.IsDir w = false ∧
      (FileNode.Update w tw.FileTree (e.FromPath.ExcludePath tw.ParentPath)
        e.FromPath).err = some err ∧
      tw1.FileTree = (FileNode.Update w tw.FileTree (e.FromPath.ExcludePath tw.ParentPath)
        e.FromPath).tree ∧
      tw1.Watcher = tw.Watcher
    | .Remove, _ =>
      tw1.FileTree =
        (FileNode.Remove w tw.FileTree (e.FromPath.ExcludePath tw.ParentPath)).tree ∧
      (((FileNode.Remove w tw.FileTree (e.FromPath.ExcludePath tw.ParentPath)).err =
          some err ∧ tw1.Watcher = tw.Watcher) ∨
       ((FileNode.Remove w tw.FileTree (e.FromPath.ExcludePath tw.ParentPath)).err = none ∧
        (Watcher.Remove w tw.Watcher e.FromPath.toString).2 = some err ∧
        tw1.Watcher = (Watcher.Remove w tw.Watcher e.FromPath.toString).1))
    | .Rename, some toPath =>
      tw1.FileTree = (FileNode.Rename w tw.FileTree (e.FromPath.ExcludePath tw.ParentPath)
        (toPath.ExcludePath tw.ParentPath)).tree ∧
      (((FileNode.Rename w tw.FileTree (e.FromPath.ExcludePath tw.ParentPath)
          (toPath.ExcludePath tw.ParentPath)).err = some err ∧ tw1.Watcher = tw.Watcher) ∨
       ((FileNode.Rename w tw.FileTree (e.FromPath.ExcludePath tw.ParentPath)
          (toPath.ExcludePath tw.ParentPath)).err = none ∧
        (Watcher.Remove w tw.Watcher e.FromPath.toString).2 = some err ∧
        tw1.Watcher = (Watcher.Remove w tw.Watcher e.FromPath.toString).1) ∨
       ((FileNode.Rename w tw.FileTree (e.FromPath.ExcludePath tw.ParentPath)
          (toPath.ExcludePath tw.ParentPath)).err = none ∧
        (Watcher.Remove w tw.Watcher e.FromPath.toString).2 = none ∧
        (Watcher.Add w (Watcher.Remove w tw.Watcher e.FromPath.toString).1
          toPath.toString).2 = some err ∧
        tw1.Watcher = (Watcher.Add w (Watcher.Remove w tw.Watcher e.FromPath.toString).1
          toPath.toString).1))
    | .Move, some toPath =>
      (FileNode.Move w tw.FileTree (e.FromPath.ExcludePath tw.ParentPath)
        (toPath.ExcludePath tw.ParentPath)).err = some err ∧
      tw1.FileTree = (FileNode.Move w tw.FileTree (e.FromPath.ExcludePath tw.ParentPath)
        (toPath.ExcludePath tw.ParentPath)).tree ∧
      tw1.Watcher = tw.Watcher
    | .Rename, none => False
    | .Move, none => False := by
  split
  · rename_i code _ hT
    simp [TreeWatcher.Handler, TreeWatcher.dispatch, hT] at hH
    obtain ⟨h1, h2, h3⟩ := hH
    subst h1
    exact ⟨h2.symm, h3.symm, rfl, rfl⟩
  · rename_i hT
    by_cases hx : e.FromPath.Exists w
    · cases hc : (FileNode.Create w tw.FileTree (e.FromPath.ExcludePath tw.ParentPath)
        e.FromPath).err with
      | none =>
        cases hg : (registerDiscovered w tw.Watcher (FileNode.Create w tw.FileTree
          (e.FromPath.ExcludePath tw.ParentPath) e.FromPath).sent).2 with
        | false =>
          simp [TreeWatcher.Handler, TreeWatcher.dispatch, TreeWatcher.Create, hT, hx, hg] at hH
        | true =>
          cases hn : (FileNode.Create w tw.FileTree (e.FromPath.ExcludePath tw.ParentPath)
            e.FromPath).node <;>
          simp [TreeWatcher.Handler, TreeWatcher.dispatch, TreeWatcher.Create, hT, hx, hg, hc,
            hn] at hH
      | some e1 =>
        cases hg : (registerDiscovered w tw.Watcher (FileNode.Create w tw.FileTree
          (e.FromPath.ExcludePath tw.ParentPath) e.FromPath).sent).2 with
        | false =>
          simp [TreeWatcher.Handler, TreeWatcher.dispatch, TreeWatcher.Create, hT, hx, hg] at hH
        | true =>
          simp [TreeWatcher.Handler, TreeWatcher.dispatch, TreeWatcher.Create, hT, hx, hc,
            hg] at hH
          obtain ⟨h1, h2, h3⟩ := hH
          subst h1 h3
          exact ⟨h2.symm, Or.inr ⟨hx, rfl, rfl, rfl⟩⟩
    · simp [TreeWatcher.Handler, TreeWatcher.dispatch, TreeWatcher.Create, hT, hx] at hH
      obtain ⟨h1, h2, h3⟩ := hH
      subst h1
      exact ⟨h2.symm, Or.inl ⟨by simpa using hx, h3.symm, rfl, rfl⟩⟩
  · rename_i hT
    by_cases hd : e.FromPath.IsDir w
    · simp [TreeWatcher.Handler, TreeWatcher.dispatch, TreeWatcher.Write, hT, hd] at hH
    · cases hx : (FileNode.Update w tw.FileTree (e.FromPath.ExcludePath tw.ParentPath)
        e.FromPath).err with
      | none =>
        simp [TreeWatcher.Handler, TreeWatcher.dispatch, TreeWatcher.Write, hT, hd, hx] at hH
      | some e1 =>
        simp [TreeWatcher.Handler, TreeWatcher.dispatch, TreeWatcher.Write, hT, hd, hx] at hH
        obtain ⟨h1, h2, h3⟩ := hH
        subst h1 h3
        exact ⟨h2.symm, by simpa using hd, rfl, rfl, rfl⟩
  · rename_i hT
    cases hx : (FileNode.Remove w tw.FileTree (e.FromPath.ExcludePath tw.ParentPath)).err with
    | some e1 =>
      simp [TreeWatcher.Handler, TreeWatcher.dispatch, TreeWatcher.Remove, hT, hx] at hH
      obtain ⟨h1, h2, h3⟩ := hH
      subst h1 h3
      exact ⟨h2.symm, rfl, Or.inl ⟨rfl, rfl⟩⟩
    | none =>
      cases hn : (FileNode.Remove w tw.FileTree
          (e.FromPath.ExcludePath tw.ParentPath)).node with
      | none =>
        simp [TreeWatcher.Handler, TreeWatcher.dispatch, TreeWatcher.Remove, hT, hx, hn] at hH
      | some node =>
        by_cases hd : node.Meta.IsDir
        · cases hR : Watcher.Remove w tw.Watcher e.FromPath.toString with
          | mk s er =>
            cases er with
            | none =>
              simp [TreeWatcher.Handler, TreeWatcher.dispatch, TreeWatcher.Remove, hT, hx, hn,
                hd, hR] at hH
            | some e2 =>
              simp [TreeWatcher.Handler, TreeWatcher.dispatch, TreeWatcher.Remove, hT, hx, hn,
                hd, hR] at hH
              obtain ⟨h1, h2, h3⟩ := hH
              subst h1 h3
              exact ⟨h2.symm, rfl, Or.inr ⟨rfl, rfl, rfl⟩⟩
        · simp [TreeWatcher.Handler, TreeWatcher.dispatch, TreeWatcher.Remove, hT, hx, hn,
            hd] at hH
  · rename_i toPath hT hTo
    cases hx : (FileNode.Rename w tw.FileTree (e.FromPath.ExcludePath tw.ParentPath)
        (toPath.ExcludePath tw.ParentPath)).err with
    | some e1 =>
      simp [TreeWatcher.Handler, TreeWatcher.dispatch, TreeWatcher.Rename, hT, hTo, hx] at hH
      obtain ⟨h1, h2, h3⟩ := hH
      subst h1 h3
      exact ⟨h2.symm, rfl, Or.inl ⟨rfl, rfl⟩⟩
    | none =>
      cases hn : (FileNode.Rename w tw.FileTree (e.FromPath.ExcludePath tw.ParentPath)
          (toPath.ExcludePath tw.ParentPath)).node with
      | none =>
        simp [TreeWatcher.Handler, TreeWatcher.dispatch, TreeWatcher.Rename, hT, hTo, hx,
          hn] at hH
      | some node =>
        by_cases hd : node.Meta.IsDir
        · cases hR : Watcher.Remove w tw.Watcher e.FromPath.toString with
          | mk s er =>
            cases er with
            | some e2 =>
              simp [TreeWatcher.Handler, TreeWatcher.dispatch, TreeWatcher.Rename, hT, hTo,
                hx, hn, hd, hR] at hH
              obtain ⟨h1, h2, h3⟩ := hH
              subst h1 h3
              exact ⟨h2.symm, rfl, Or.inr (Or.inl ⟨rfl, rfl, rfl⟩)⟩
            | none =>
              cases hA : Watcher.Add w s toPath.toString with
              | mk s2 ea =>
                cases ea with
                | none =>
                  simp [TreeWatcher.Handler, TreeWatcher.dispatch, TreeWatcher.Rename, hT,
                    hTo, hx, hn, hd, hR, hA] at hH
                | some e3 =>
                  simp [TreeWatcher.Handler, TreeWatcher.dispatch, TreeWatcher.Rename, hT,
                    hTo, hx, hn, hd, hR, hA] at hH
                  obtain ⟨h1, h2, h3⟩ := hH
                  subst h1 h3
                  exact ⟨h2.symm, rfl, Or.inr (Or.inr ⟨rfl, rfl, rfl, rfl⟩)⟩
        · simp [TreeWatcher.Handler, TreeWatcher.dispatch, TreeWatcher.Rename, hT, hTo, hx,
            hn, hd] at hH
  · rename_i toPath hT hTo
    cases hx : (FileNode.Move w tw.FileTree (e.FromPath.ExcludePath tw.ParentPath)
        (toPath.ExcludePath tw.ParentPath)).err with
    | some e1 =>
      simp [TreeWatcher.Handler, TreeWatcher.dispatch, TreeWatcher.Move, hT, hTo, hx] at hH
      obtain ⟨h1, h2, h3⟩ := hH
      subst h1 h3
      exact ⟨h2.symm, rfl, rfl, rfl⟩
    | none =>
      cases hn : (FileNode.Move w tw.FileTree (e.FromPath.ExcludePath tw.ParentPath)
          (toPath.ExcludePath tw.ParentPath)).node <;>
      simp [TreeWatcher.Handler, TreeWatcher.dispatch, TreeWatcher.Move, hT, hTo, hx,
        hn] at hH
  · rename_i hT hTo
    simp [TreeWatcher.Handler, TreeWatcher.dispatch, TreeWatcher.Rename, hT, hTo] at hH
  · rename_i hT hTo
    simp [TreeWatcher.Handler, TreeWatcher.dispatch, TreeWatcher.Move, hT, hTo] at hH

/-- C10, amended, at two inputs. At the rename of `/data/a` to `/data/z` with a source that
refuses `/data/z`, the error comes with the tree that the tree's `Rename` left and with the
watch set that the successful deregistration left. At the removal of `/data/x.txt`, which the
tree does not hold, the error comes with the tree that the failed `Remove` left and with the
watch set from before. -/
theorem Handler_error_frame_witness :
    (sampleWatcher.Handler refusingWorld renameAZ [] =
      ((sampleWatcher.Handler refusingWorld renameAZ []).1,
        .returned (none, some .WatchRegistrationFailed)) ∧
     sampleWatcher.Handler sampleWorld removeX [] =
      (sampleWatcher, .returned (none, some .NotFound))) ∧
    (sampleWatcher.Handler refusingWorld renameAZ []).1.FileTree =
      (FileNode.Rename refusingWorld sampleWatcher.FileTree
        (renameAZ.FromPath.ExcludePath sampleWatcher.ParentPath)
        ((NewFSPath "/data/z").ExcludePath sampleWatcher.ParentPath)).tree ∧
    (FileNode.Rename refusingWorld sampleWatcher.FileTree
        (renameAZ.FromPath.ExcludePath sampleWatcher.ParentPath)
        ((NewFSPath "/data/z").ExcludePath sampleWatcher.ParentPath)).tree =
      .mk "data" ⟨true, ""⟩ [.mk "h.txt" ⟨false, "c3"⟩ [], sampleDirA.withName "z"] ∧
    sampleWatcher.FileTree =
      (FileNode.Remove sampleWorld sampleWatcher.FileTree
        (removeX.FromPath.ExcludePath sampleWatcher.ParentPath)).tree :=
  ⟨⟨rfl, rfl⟩,
    (Handler_error_frame refusingWorld sampleWatcher
      (sampleWatcher.Handler refusingWorld renameAZ []).1 renameAZ [] none
      .WatchRegistrationFailed rfl).2.1,
    rfl,
    (Handler_error_frame sampleWorld sampleWatcher sampleWatcher removeX [] none
      .NotFound rfl).2.1⟩

end watcher_linux

namespace fs_watcher

/-- C7: for every watcher state and every path, `EventHandler` called with the operation
`Chmod` returns a nil error and leaves the watcher, so the tree and the watch set, as it
was. -/
theorem EventHandler_Chmod (w : World) (tw : TreeWatcher) (path : String) :
    tw.EventHandler w fsnotify.Chmod path = (tw, .returned none) := by
  simp [TreeWatcher.EventHandler]

/-- C9, on a failing input: the `Remove` of `/data/x.txt` fails with `NotFound` and the
`Create` of `/data/a` fails with `AlreadyExists`, and `EventHandler` returns a nil error for
both operations. -/
theorem EventHandler_swallows_error :
    (sampleFsWatcher.Remove sampleWorld (NewFSPath "/data/x.txt")).2 =
      .returned (some .NotFound) ∧
    (sampleFsWatcher.EventHandler sampleWorld fsnotify.Remove "/data/x.txt").2 =
      .returned none ∧
    (sampleFsWatcher.Create sampleWorld (NewFSPath "/data/a")).2 =
      .returned (some .AlreadyExists) ∧
    (sampleFsWatcher.EventHandler sampleWorld fsnotify.Create "/data/a").2 =
      .returned none :=
  ⟨rfl, rfl, rfl, rfl⟩

end fs_watcher

end FsShadow
